import Mathlib

/-!
Verification of the SVG-to-geometry pipeline of `packages/svg/src/lib.rs`.

Shallow embedding conventions:
* Rust `f32` values are modelled as exact rationals (`ℚ`).  Every concrete
  input exercised below uses values on which `f32` arithmetic is exact, so
  the idealization does not change any of the structural facts proved here
  (directive counts, operand routing, error propagation, bound selection).
* Rust `String` values are modelled as Lean `String`; the tokenizer buffer
  is threaded as a `List Char` (a Rust `String` is a sequence of chars).
* The `while` loop of `parse_svg_path_d` is modelled with explicit fuel.
  Every iteration of the Rust loop that terminates consumes at least one
  token, so fuel `tokens.length + 1` reproduces every terminating run.
  (On inputs where the Rust loop diverges — a bare numeric token while the
  current command is `Z` — the model stops when fuel runs out.)
* The external lyon tessellators and the elliptical-arc flattener are
  black-box collaborators; they are passed in as function arguments, as the
  design treats them as out-of-scope collaborators behind a fixed contract.
-/

attribute [local semireducible] Rat.mul Rat.add Rat.sub Rat.inv Rat.ofScientific

namespace Glade

/-! ## Tokenizer (`tokenize_svg_path`) -/

/-- One step of the Rust `for` loop over characters, with the pending
numeric buffer `cur` threaded explicitly.  Mirrors the branch order of
`tokenize_svg_path` in `lib.rs` exactly, including the (unreachable)
`'e' | 'E'` branch that is shadowed by the leading alphabetic branch.
Fuel only serves to make the recursion structural: every step consumes at
least one character, so fuel `cs.length + 1` reproduces the Rust loop. -/
def tokLoop : ℕ → List Char → List Char → List String
  | 0, _, _ => []
  | _ + 1, [], cur => if cur.isEmpty then [] else [⟨cur⟩]
  | fuel + 1, c :: rest, cur =>
    if c.isAlpha then
      (if cur.isEmpty then [] else [(⟨cur⟩ : String)]) ++ c.toString :: tokLoop fuel rest []
    else if c = '-' then
      (if cur.isEmpty then [] else [(⟨cur⟩ : String)]) ++ tokLoop fuel rest ['-']
    else if c = '.' then
      if cur.contains '.' then (⟨cur⟩ : String) :: tokLoop fuel rest ['.']
      else tokLoop fuel rest (cur ++ ['.'])
    else if c.isDigit then
      tokLoop fuel rest (cur ++ [c])
    else if c = ',' ∨ c.isWhitespace then
      (if cur.isEmpty then [] else [(⟨cur⟩ : String)]) ++ tokLoop fuel rest []
    else if c = 'e' ∨ c = 'E' then
      match rest with
      | next :: rest2 =>
        if next = '+' ∨ next = '-' then tokLoop fuel rest2 (cur ++ [c, next])
        else tokLoop fuel rest (cur ++ [c])
      | [] => tokLoop fuel [] (cur ++ [c])
    else
      tokLoop fuel rest cur

/-- `tokenize_svg_path` from `lib.rs`: lex a path-data string into tokens. -/
def tokenize_svg_path (d : String) : List String :=
  tokLoop (d.data.length + 1) d.data []

/-! ## Numeric literal parsing (Rust `str::parse::<f32>`) -/

def digitsVal (cs : List Char) : ℚ :=
  cs.foldl (fun a c => 10 * a + (c.toNat - 48 : ℕ)) 0

/-- Model of Rust `tokens[i].parse::<f32>()` restricted to the token
alphabet the tokenizer can produce (digits, `.`, `-`, letters): an optional
sign, a decimal mantissa that must contain at least one digit, and an
optional exponent that must contain at least one digit.  Values are kept
exact in `ℚ` (no rounding to `f32`). -/
def parseNumber? (s : String) : Option ℚ :=
  let cs := s.data
  let sgn : ℚ := if cs.head? = some '-' then -1 else 1
  let cs := if cs.head? = some '-' ∨ cs.head? = some '+' then cs.tail else cs
  let intPart := cs.takeWhile Char.isDigit
  let cs := cs.dropWhile Char.isDigit
  let (fracPart, cs) :=
    match cs with
    | '.' :: rest => (rest.takeWhile Char.isDigit, rest.dropWhile Char.isDigit)
    | _ => ([], cs)
  if intPart.isEmpty ∧ fracPart.isEmpty then none
  else
    let mantissa : ℚ := digitsVal intPart + digitsVal fracPart / (10 ^ fracPart.length)
    match cs with
    | [] => some (sgn * mantissa)
    | e :: rest =>
      if e = 'e' ∨ e = 'E' then
        let esgn : ℤ := if rest.head? = some '-' then -1 else 1
        let rest := if rest.head? = some '-' ∨ rest.head? = some '+' then rest.tail else rest
        let expDigits := rest.takeWhile Char.isDigit
        let rest2 := rest.dropWhile Char.isDigit
        if expDigits.isEmpty ∨ ¬rest2.isEmpty then none
        else some (sgn * mantissa * (10 : ℚ) ^ (esgn * (digitsVal expDigits).num))
      else none

/-! ## Path-data interpreter (`parse_svg_path_d`) -/

/-- The `SvgCommand` enum from `lib.rs`. -/
inductive SvgCommand where
  | moveTo (x y : ℚ) (relative : Bool)
  | lineTo (x y : ℚ) (relative : Bool)
  | hLineTo (x : ℚ) (relative : Bool)
  | vLineTo (y : ℚ) (relative : Bool)
  | cubicTo (x1 y1 x2 y2 x y : ℚ) (relative : Bool)
  | smoothCubicTo (x2 y2 x y : ℚ) (relative : Bool)
  | quadTo (x1 y1 x y : ℚ) (relative : Bool)
  | smoothQuadTo (x y : ℚ) (relative : Bool)
  | arcTo (rx ry rotation : ℚ) (largeArc sweep : Bool) (x y : ℚ) (relative : Bool)
  | close
  deriving DecidableEq, Repr

/-- The `parse_number` closure: consume one token as an `f32`, defaulting
to `0.0` when the stream is exhausted or the token fails to parse. -/
def parse_number (tokens : List String) (i : ℕ) : ℚ × ℕ :=
  if tokens.length ≤ i then (0, i)
  else ((parseNumber? (tokens.getD i "")).getD 0, i + 1)

/-- The `parse_flag` closure: consume one token as an arc flag; only the
exact token `"1"` is `true`. -/
def parse_flag (tokens : List String) (i : ℕ) : Bool × ℕ :=
  if tokens.length ≤ i then (false, i)
  else (tokens.getD i "" = "1", i + 1)

/-- The `is_command` closure from `parse_svg_path_d`. -/
def isCommand (token : String) : Bool :=
  token = "M" ∨ token = "m" ∨ token = "L" ∨ token = "l" ∨ token = "H" ∨ token = "h" ∨
  token = "V" ∨ token = "v" ∨ token = "C" ∨ token = "c" ∨ token = "S" ∨ token = "s" ∨
  token = "Q" ∨ token = "q" ∨ token = "T" ∨ token = "t" ∨ token = "A" ∨ token = "a" ∨
  token = "Z" ∨ token = "z"

/-- One dispatch of the `match cmd` in `parse_svg_path_d`'s loop body:
given the token index and the current command letter, produce the emitted
commands, the next token index, and the next current command letter. -/
def dispatch (tokens : List String) (i : ℕ) (cur : Char) :
    List SvgCommand × ℕ × Char :=
  let relative := cur.isLower
  let u := cur.toUpper
  if u = 'M' then
    let (x, i1) := parse_number tokens i
    let (y, i2) := parse_number tokens i1
    ([.moveTo x y relative], i2, if relative then 'l' else 'L')
  else if u = 'L' then
    let (x, i1) := parse_number tokens i
    let (y, i2) := parse_number tokens i1
    ([.lineTo x y relative], i2, cur)
  else if u = 'H' then
    let (x, i1) := parse_number tokens i
    ([.hLineTo x relative], i1, cur)
  else if u = 'V' then
    let (y, i1) := parse_number tokens i
    ([.vLineTo y relative], i1, cur)
  else if u = 'C' then
    let (x1, i1) := parse_number tokens i
    let (y1, i2) := parse_number tokens i1
    let (x2, i3) := parse_number tokens i2
    let (y2, i4) := parse_number tokens i3
    let (x, i5) := parse_number tokens i4
    let (y, i6) := parse_number tokens i5
    ([.cubicTo x1 y1 x2 y2 x y relative], i6, cur)
  else if u = 'S' then
    let (x2, i1) := parse_number tokens i
    let (y2, i2) := parse_number tokens i1
    let (x, i3) := parse_number tokens i2
    let (y, i4) := parse_number tokens i3
    ([.smoothCubicTo x2 y2 x y relative], i4, cur)
  else if u = 'Q' then
    let (x1, i1) := parse_number tokens i
    let (y1, i2) := parse_number tokens i1
    let (x, i3) := parse_number tokens i2
    let (y, i4) := parse_number tokens i3
    ([.quadTo x1 y1 x y relative], i4, cur)
  else if u = 'T' then
    let (x, i1) := parse_number tokens i
    let (y, i2) := parse_number tokens i1
    ([.smoothQuadTo x y relative], i2, cur)
  else if u = 'A' then
    let (rx, i1) := parse_number tokens i
    let (ry, i2) := parse_number tokens i1
    let (rot, i3) := parse_number tokens i2
    let (la, i4) := parse_flag tokens i3
    let (sw, i5) := parse_flag tokens i4
    let (x, i6) := parse_number tokens i5
    let (y, i7) := parse_number tokens i6
    ([.arcTo rx ry rot la sw x y relative], i7, cur)
  else if u = 'Z' then
    ([.close], i, cur)
  else
    ([], i + 1, cur)

/-- The `while i < tokens.len()` loop of `parse_svg_path_d`, with fuel.
A command-letter token updates the current command and is consumed; if
that letter was the final token and is not `Z`/`z`, the loop `break`s
before dispatching.  Otherwise the (possibly repeated) current command is
dispatched. -/
def parseLoop (tokens : List String) : ℕ → ℕ → Char → List SvgCommand
  | 0, _, _ => []
  | fuel + 1, i0, cmd0 =>
    if i0 < tokens.length then
      if isCommand (tokens.getD i0 "") then
        let c := (tokens.getD i0 "").front
        if tokens.length ≤ i0 + 1 ∧ c.toUpper ≠ 'Z' then []
        else
          let (emitted, i', cmd') := dispatch tokens (i0 + 1) c
          emitted ++ parseLoop tokens fuel i' cmd'
      else
        let (emitted, i', cmd') := dispatch tokens i0 cmd0
        emitted ++ parseLoop tokens fuel i' cmd'
    else []

/-- `parse_svg_path_d` from `lib.rs`: tokenize, then run the interpreter
loop starting at index `0` with current command `'M'`. -/
def parse_svg_path_d (d : String) : List SvgCommand :=
  let tokens := tokenize_svg_path d
  if tokens.isEmpty then [] else parseLoop tokens (tokens.length + 1) 0 'M'

/-! ## Geometry builder (`build_lyon_path`)

The lyon `Path` is modelled as the sequence of builder calls
(`begin` / `line_to` / `quadratic_bezier_to` / `cubic_bezier_to` / `close`)
performed on it, in device-space coordinates.  The elliptical-arc flattener
(`SvgArc::for_each_quadratic_bezier`, an external lyon algorithm) is passed
in as a black-box function producing the (ctrl, to) pairs of the emitted
quadratic Béziers. -/

/-- A builder call recorded on the lyon path, in device space. -/
inductive PathEvent where
  | begin (x y : ℚ)
  | lineTo (x y : ℚ)
  | quadTo (cx cy x y : ℚ)
  | cubicTo (c1x c1y c2x c2y x y : ℚ)
  | close
  deriving DecidableEq, Repr

/-- The `lyon::geom::SvgArc` value constructed in the `ArcTo` arm. -/
structure SvgArcRec where
  fromX : ℚ
  fromY : ℚ
  toX : ℚ
  toY : ℚ
  radiiX : ℚ
  radiiY : ℚ
  xRotation : ℚ
  largeArc : Bool
  sweep : Bool
  deriving DecidableEq, Repr

/-- An arc flattener: the black-box collaborator standing for lyon's
`for_each_quadratic_bezier`, returning the (ctrlX, ctrlY, toX, toY)
quadruples of the emitted quadratic Béziers. -/
def ArcFlattener : Type := SvgArcRec → List (ℚ × ℚ × ℚ × ℚ)

/-- The mutable locals of `build_lyon_path`, threaded through the loop. -/
structure BuildState where
  curX : ℚ
  curY : ℚ
  startX : ℚ
  startY : ℚ
  lastCtrlX : ℚ
  lastCtrlY : ℚ
  lastCmd : Option Char
  deriving DecidableEq, Repr

/-- Initial state of `build_lyon_path`: all coordinates zero, no last
command. -/
def initBuildState : BuildState :=
  { curX := 0, curY := 0, startX := 0, startY := 0
    lastCtrlX := 0, lastCtrlY := 0, lastCmd := none }

/-- One iteration of the `for cmd in commands` loop of `build_lyon_path`:
from the current state and one `SvgCommand`, the new state and the builder
calls performed. -/
def buildStep (arcF : ArcFlattener) (offsetX offsetY scaleX scaleY : ℚ)
    (s : BuildState) : SvgCommand → BuildState × List PathEvent
  | .moveTo x y relative =>
    let nx := if relative then s.curX + x else x
    let ny := if relative then s.curY + y else y
    ({ s with curX := nx, curY := ny, startX := nx, startY := ny, lastCmd := some 'M' },
     [.begin (nx * scaleX + offsetX) (ny * scaleY + offsetY)])
  | .lineTo x y relative =>
    let nx := if relative then s.curX + x else x
    let ny := if relative then s.curY + y else y
    ({ s with curX := nx, curY := ny, lastCmd := some 'L' },
     [.lineTo (nx * scaleX + offsetX) (ny * scaleY + offsetY)])
  | .hLineTo x relative =>
    let nx := if relative then s.curX + x else x
    ({ s with curX := nx, lastCmd := some 'H' },
     [.lineTo (nx * scaleX + offsetX) (s.curY * scaleY + offsetY)])
  | .vLineTo y relative =>
    let ny := if relative then s.curY + y else y
    ({ s with curY := ny, lastCmd := some 'V' },
     [.lineTo (s.curX * scaleX + offsetX) (ny * scaleY + offsetY)])
  | .cubicTo x1 y1 x2 y2 x y relative =>
    let nx1 := if relative then s.curX + x1 else x1
    let ny1 := if relative then s.curY + y1 else y1
    let nx2 := if relative then s.curX + x2 else x2
    let ny2 := if relative then s.curY + y2 else y2
    let nx := if relative then s.curX + x else x
    let ny := if relative then s.curY + y else y
    ({ s with lastCtrlX := nx2, lastCtrlY := ny2, curX := nx, curY := ny,
              lastCmd := some 'C' },
     [.cubicTo (nx1 * scaleX + offsetX) (ny1 * scaleY + offsetY)
               (nx2 * scaleX + offsetX) (ny2 * scaleY + offsetY)
               (nx * scaleX + offsetX) (ny * scaleY + offsetY)])
  | .smoothCubicTo x2 y2 x y relative =>
    let cx1 := if s.lastCmd = some 'C' ∨ s.lastCmd = some 'S' then
                 2 * s.curX - s.lastCtrlX else s.curX
    let cy1 := if s.lastCmd = some 'C' ∨ s.lastCmd = some 'S' then
                 2 * s.curY - s.lastCtrlY else s.curY
    let nx2 := if relative then s.curX + x2 else x2
    let ny2 := if relative then s.curY + y2 else y2
    let nx := if relative then s.curX + x else x
    let ny := if relative then s.curY + y else y
    ({ s with lastCtrlX := nx2, lastCtrlY := ny2, curX := nx, curY := ny,
              lastCmd := some 'S' },
     [.cubicTo (cx1 * scaleX + offsetX) (cy1 * scaleY + offsetY)
               (nx2 * scaleX + offsetX) (ny2 * scaleY + offsetY)
               (nx * scaleX + offsetX) (ny * scaleY + offsetY)])
  | .quadTo x1 y1 x y relative =>
    let nx1 := if relative then s.curX + x1 else x1
    let ny1 := if relative then s.curY + y1 else y1
    let nx := if relative then s.curX + x else x
    let ny := if relative then s.curY + y else y
    ({ s with lastCtrlX := nx1, lastCtrlY := ny1, curX := nx, curY := ny,
              lastCmd := some 'Q' },
     [.quadTo (nx1 * scaleX + offsetX) (ny1 * scaleY + offsetY)
              (nx * scaleX + offsetX) (ny * scaleY + offsetY)])
  | .smoothQuadTo x y relative =>
    let cx := if s.lastCmd = some 'Q' ∨ s.lastCmd = some 'T' then
                2 * s.curX - s.lastCtrlX else s.curX
    let cy := if s.lastCmd = some 'Q' ∨ s.lastCmd = some 'T' then
                2 * s.curY - s.lastCtrlY else s.curY
    let nx := if relative then s.curX + x else x
    let ny := if relative then s.curY + y else y
    ({ s with lastCtrlX := cx, lastCtrlY := cy, curX := nx, curY := ny,
              lastCmd := some 'T' },
     [.quadTo (cx * scaleX + offsetX) (cy * scaleY + offsetY)
              (nx * scaleX + offsetX) (ny * scaleY + offsetY)])
  | .arcTo rx ry rotation largeArc sweep x y relative =>
    let nx := if relative then s.curX + x else x
    let ny := if relative then s.curY + y else y
    if rx = 0 ∨ ry = 0 then
      ({ s with curX := nx, curY := ny, lastCmd := some 'A' },
       [.lineTo (nx * scaleX + offsetX) (ny * scaleY + offsetY)])
    else
      let arc : SvgArcRec :=
        { fromX := s.curX * scaleX + offsetX, fromY := s.curY * scaleY + offsetY
          toX := nx * scaleX + offsetX, toY := ny * scaleY + offsetY
          radiiX := rx * scaleX, radiiY := ry * scaleY
          xRotation := rotation, largeArc := largeArc, sweep := sweep }
      ({ s with curX := nx, curY := ny, lastCmd := some 'A' },
       (arcF arc).map fun q => .quadTo q.1 q.2.1 q.2.2.1 q.2.2.2)
  | .close =>
    ({ s with curX := s.startX, curY := s.startY, lastCmd := some 'Z' },
     [.close])

/-- `build_lyon_path` from `lib.rs`: replay the command list into the lyon
path builder, producing the event sequence of the built path. -/
def build_lyon_path (arcF : ArcFlattener) (commands : List SvgCommand)
    (offsetX offsetY scaleX scaleY : ℚ) : List PathEvent :=
  (commands.foldl
    (fun acc c =>
      let r := buildStep arcF offsetX offsetY scaleX scaleY acc.1 c
      (r.1, acc.2 ++ r.2))
    ((initBuildState, []) : BuildState × List PathEvent)).2

/-! ## Mesh assembly (`build_mesh`, `MeshBounds`) -/

/-- `TessVertex` from `lib.rs`. -/
structure TessVertex where
  x : ℚ
  y : ℚ
  edge_dist : ℚ
  deriving DecidableEq, Repr

/-- Lyon `VertexBuffers<TessVertex, u32>`. -/
structure VertexBuffers where
  vertices : List TessVertex
  indices : List ℕ
  deriving DecidableEq, Repr

/-- `MeshBounds` from `lib.rs`. -/
structure MeshBounds where
  min_x : ℚ
  min_y : ℚ
  max_x : ℚ
  max_y : ℚ
  deriving DecidableEq, Repr

/-- The exact value of Rust `f32::MAX`, `(2 - 2⁻²³)·2¹²⁷`. -/
def f32Max : ℚ := (2 ^ 24 - 1) * 2 ^ 104

/-- `MeshBounds::new()`: the inverted accumulation sentinel
(`min = f32::MAX`, `max = f32::MIN = -f32::MAX`). -/
def MeshBounds.sentinel : MeshBounds :=
  { min_x := f32Max, min_y := f32Max, max_x := -f32Max, max_y := -f32Max }

/-- `MeshBounds::expand`. -/
def MeshBounds.expand (b : MeshBounds) (x y : ℚ) : MeshBounds :=
  { min_x := min b.min_x x, min_y := min b.min_y y
    max_x := max b.max_x x, max_y := max b.max_y y }

/-- `MeshBounds::is_valid`. -/
def MeshBounds.is_valid (b : MeshBounds) : Bool :=
  b.min_x ≤ b.max_x ∧ b.min_y ≤ b.max_y

/-- `MeshBounds::default()` (derived `Default`: all fields `0.0`). -/
def MeshBounds.zeroed : MeshBounds :=
  { min_x := 0, min_y := 0, max_x := 0, max_y := 0 }

/-- `TessellatedMesh` from `lib.rs`: flat `[x, y, edge_dist, ...]` vertex
data, triangle indices, and the computed bounds. -/
structure TessellatedMesh where
  vertices : List ℚ
  indices : List ℕ
  bounds : MeshBounds
  deriving DecidableEq, Repr

/-- `build_mesh` from `lib.rs`: flatten the vertex buffer, accumulate the
bounding box from the sentinel, and replace an invalid (inverted) box by
the all-zero default. -/
def build_mesh (buffers : VertexBuffers) : TessellatedMesh :=
  let bounds := buffers.vertices.foldl (fun b v => b.expand v.x v.y) MeshBounds.sentinel
  let vertices := buffers.vertices.foldl (fun acc v => acc ++ [v.x, v.y, v.edge_dist]) []
  { vertices := vertices
    indices := buffers.indices
    bounds := if bounds.is_valid then bounds else MeshBounds.zeroed }

/-! ## Tessellation entry points (`SvgTessellator`)

The lyon fill and stroke tessellators are black-box collaborators: they
receive the tolerance (and for strokes the line width) together with the
built path, and either return a vertex/index buffer or fail.  The
serialization step (`serde_wasm_bindgen::to_value`) is the identity in
this model. -/

/-- A fill tessellator: tolerance and path in, buffers or failure out. -/
def FillTess : Type := ℚ → List PathEvent → Except String VertexBuffers

/-- A stroke tessellator: line width, tolerance and path in, buffers or
failure out. -/
def StrokeTess : Type := ℚ → ℚ → List PathEvent → Except String VertexBuffers

/-- `SvgTessellator::tessellate_path` from `lib.rs`: parse, build, fill-
tessellate with tolerance `0.1`, propagating a tessellation failure as an
explicit error. -/
def tessellate_path (arcF : ArcFlattener) (fillT : FillTess) (path_d : String)
    (offset_x offset_y scale_x scale_y : ℚ) : Except String TessellatedMesh :=
  let commands := parse_svg_path_d path_d
  let path := build_lyon_path arcF commands offset_x offset_y scale_x scale_y
  match fillT (1 / 10) path with
  | .error e => .error ("Tessellation error: " ++ e)
  | .ok buffers => .ok (build_mesh buffers)

/-- `SvgTessellator::tessellate_stroke` from `lib.rs`: like
`tessellate_path` but stroke-tessellated with line width
`stroke_width * max(scale_x, scale_y)`. -/
def tessellate_stroke (arcF : ArcFlattener) (strokeT : StrokeTess) (path_d : String)
    (stroke_width offset_x offset_y scale_x scale_y : ℚ) :
    Except String TessellatedMesh :=
  let commands := parse_svg_path_d path_d
  let path := build_lyon_path arcF commands offset_x offset_y scale_x scale_y
  match strokeT (stroke_width * max scale_x scale_y) (1 / 10) path with
  | .error e => .error ("Tessellation error: " ++ e)
  | .ok buffers => .ok (build_mesh buffers)

/-- `ParsedPath` from `lib.rs`. -/
structure ParsedPath where
  fill : Option String
  stroke : Option String
  stroke_width : Option ℚ
  d : String
  deriving DecidableEq, Repr

/-- `ViewBox` from `lib.rs`. -/
structure ViewBox where
  x : ℚ
  y : ℚ
  width : ℚ
  height : ℚ
  deriving DecidableEq, Repr

/-- `ParsedSvg` from `lib.rs`. -/
structure ParsedSvg where
  width : ℚ
  height : ℚ
  view_box : Option ViewBox
  paths : List ParsedPath
  deriving DecidableEq, Repr

/-- The per-path body of `tessellate_svg`'s loop: fill branch then stroke
branch, each pushing a mesh only when tessellation succeeded (`is_ok`) and
produced vertices, silently skipping otherwise. -/
def tessellateSvgStep (arcF : ArcFlattener) (fillT : FillTess) (strokeT : StrokeTess)
    (scale_x scale_y : ℚ) (acc : List TessellatedMesh) (p : ParsedPath) :
    List TessellatedMesh :=
  let acc :=
    if p.fill ≠ some "none" then
      let commands := parse_svg_path_d p.d
      let lyonPath := build_lyon_path arcF commands 0 0 scale_x scale_y
      match fillT (1 / 10) lyonPath with
      | .ok buffers => if ¬buffers.vertices.isEmpty then acc ++ [build_mesh buffers] else acc
      | .error _ => acc
    else acc
  match p.stroke, p.stroke_width with
  | some stroke, some stroke_width =>
    if stroke ≠ "none" then
      let commands := parse_svg_path_d p.d
      let lyonPath := build_lyon_path arcF commands 0 0 scale_x scale_y
      match strokeT (stroke_width * max scale_x scale_y) (1 / 10) lyonPath with
      | .ok buffers => if ¬buffers.vertices.isEmpty then acc ++ [build_mesh buffers] else acc
      | .error _ => acc
    else acc
  | _, _ => acc

/-- `SvgTessellator::tessellate_svg` from `lib.rs`, starting from the
already-extracted `ParsedSvg` (the Rust function first obtains it via the
regex-based `parse_svg_content`): derive the scale from the display size
and the native (viewBox-preferring) size, then run the per-path loop.
The only `Err` the Rust function can return is a serialization error;
serialization is the identity here, so the loop's result is returned as
`.ok`. -/
def tessellate_svg (arcF : ArcFlattener) (fillT : FillTess) (strokeT : StrokeTess)
    (parsed : ParsedSvg) (display_width display_height : ℚ) :
    Except String (List TessellatedMesh) :=
  let native_width := (parsed.view_box.map ViewBox.width).getD parsed.width
  let native_height := (parsed.view_box.map ViewBox.height).getD parsed.height
  let scale_x := display_width / native_width
  let scale_y := display_height / native_height
  .ok (parsed.paths.foldl (tessellateSvgStep arcF fillT strokeT scale_x scale_y) [])

/-! ## Shape extraction and primitive-to-path conversion
(`extract_attr`, the `circle`/`rect`/`polygon` arms of `parse_svg_content`)

Rust renders `f32` values into the synthesized `d` strings with `{}`
(`Display`); the model prints the exact decimal expansion of the rational
(identical on every value whose decimal expansion terminates, in
particular on all concrete inputs used below). -/

/-- The decimal digit character for `n < 10`. -/
def digitChar (n : ℕ) : Char := Char.ofNat (48 + n)

/-- Decimal digits of a natural number, most significant first (fuel-based
so that the kernel can evaluate it; fuel `n + 1` always suffices). -/
def natDigits : ℕ → ℕ → List Char
  | 0, _ => []
  | fuel + 1, n => if n < 10 then [digitChar n] else natDigits fuel (n / 10) ++ [digitChar (n % 10)]

/-- Decimal digits of the fractional part `f` (with `0 ≤ f < 1`), stopping
when the expansion terminates or fuel runs out. -/
def fracDigits : ℕ → ℚ → List Char
  | 0, _ => []
  | fuel + 1, f =>
    let f10 := f * 10
    let d := f10.floor.toNat
    digitChar d :: (if f10 - f10.floor = 0 then [] else fracDigits fuel (f10 - f10.floor))

/-- Exact decimal rendering of a rational (model of Rust's `{}` formatting
of `f32`). -/
def formatQ (q : ℚ) : String :=
  let sgn : String := if q < 0 then "-" else ""
  let a : ℚ := |q|
  let ip : ℕ := a.floor.toNat
  let fr : ℚ := a - a.floor
  if fr = 0 then sgn ++ ⟨natDigits (ip + 1) ip⟩
  else sgn ++ ⟨natDigits (ip + 1) ip⟩ ++ "." ++ ⟨fracDigits 64 fr⟩

/-- A regex word character (`\w`): ASCII letter, digit, or underscore. -/
def isWordChar (c : Char) : Bool := c.isAlphanum ∨ c = '_'

/-- Try to match the regex `attr\s*=\s*["']([^"']*)["']` at the head of
`cs`, returning the capture. -/
def matchAttrAt (attr : List Char) (cs : List Char) : Option String :=
  if attr.isPrefixOf cs then
    let rest := (cs.drop attr.length).dropWhile Char.isWhitespace
    match rest with
    | '=' :: rest1 =>
      let rest2 := rest1.dropWhile Char.isWhitespace
      match rest2 with
      | q :: rest3 =>
        if q = '"' ∨ q = '\'' then
          let cap := rest3.takeWhile fun c => ¬(c = '"' ∨ c = '\'')
          match rest3.dropWhile (fun c => ¬(c = '"' ∨ c = '\'')) with
          | _ :: _ => some ⟨cap⟩
          | [] => none
        else none
      | [] => none
    | _ => none
  else none

/-- Left-to-right scan for the first position with a preceding word
boundary at which the attribute pattern matches. -/
def extractLoop (attr : List Char) : List Char → Bool → Option String
  | [], _ => none
  | c :: rest, atBoundary =>
    if atBoundary then
      match matchAttrAt attr (c :: rest) with
      | some v => some v
      | none => extractLoop attr rest (¬isWordChar c)
    else extractLoop attr rest (¬isWordChar c)

/-- `extract_attr` from `lib.rs`: first match of
`\battr\s*=\s*["']([^"']*)["']` in the element text (the leading `\b`
holds at the string start or after a non-word character; `attr` always
starts with a word character). -/
def extract_attr (element attr : String) : Option String :=
  extractLoop attr.data element.data true

/-- The Bézier circle constant `k = 0.5522847498` from the circle arm. -/
def circleK : ℚ := 5522847498 / 10000000000

/-- The path-data string synthesized for a `circle` element
(four cubic segments, starting and ending at `(cx + r, cy)`). -/
def circleD (cx cy r : ℚ) : String :=
  let k := circleK
  "M" ++ formatQ (cx + r) ++ "," ++ formatQ cy ++
  " C" ++ formatQ (cx + r) ++ "," ++ formatQ (cy + k * r) ++ " " ++
    formatQ (cx + k * r) ++ "," ++ formatQ (cy + r) ++ " " ++
    formatQ cx ++ "," ++ formatQ (cy + r) ++
  " C" ++ formatQ (cx - k * r) ++ "," ++ formatQ (cy + r) ++ " " ++
    formatQ (cx - r) ++ "," ++ formatQ (cy + k * r) ++ " " ++
    formatQ (cx - r) ++ "," ++ formatQ cy ++
  " C" ++ formatQ (cx - r) ++ "," ++ formatQ (cy - k * r) ++ " " ++
    formatQ (cx - k * r) ++ "," ++ formatQ (cy - r) ++ " " ++
    formatQ cx ++ "," ++ formatQ (cy - r) ++
  " C" ++ formatQ (cx + k * r) ++ "," ++ formatQ (cy - r) ++ " " ++
    formatQ (cx + r) ++ "," ++ formatQ (cy - k * r) ++ " " ++
    formatQ (cx + r) ++ "," ++ formatQ cy ++
  " Z"

/-- The `circle` arm of `parse_svg_content`: requires `cx`, `cy`, `r` to
be present and to parse; carries only `fill` onto the synthesized record
(`stroke` and `stroke_width` are hard-coded `None` in the source). -/
def circleToRecord (element : String) : Option ParsedPath :=
  match extract_attr element "cx", extract_attr element "cy", extract_attr element "r" with
  | some cxs, some cys, some rs =>
    match parseNumber? cxs, parseNumber? cys, parseNumber? rs with
    | some cx, some cy, some r =>
      some { d := circleD cx cy r, fill := extract_attr element "fill"
             stroke := none, stroke_width := none }
    | _, _, _ => none
  | _, _, _ => none

/-- The path-data string synthesized for a `rect` element:
`M{x},{y} L{x+w},{y} L{x+w},{y+h} L{x},{y+h} Z`. -/
def rectD (x y w h : ℚ) : String :=
  "M" ++ formatQ x ++ "," ++ formatQ y ++
  " L" ++ formatQ (x + w) ++ "," ++ formatQ y ++
  " L" ++ formatQ (x + w) ++ "," ++ formatQ (y + h) ++
  " L" ++ formatQ x ++ "," ++ formatQ (y + h) ++
  " Z"

/-- The `rect` arm of `parse_svg_content`: `x`/`y` default to `0.0` when
missing or unparseable, `width`/`height` must be present and parse; only
`fill` is carried onto the record. -/
def rectToRecord (element : String) : Option ParsedPath :=
  let x : ℚ := ((extract_attr element "x").bind parseNumber?).getD 0
  let y : ℚ := ((extract_attr element "y").bind parseNumber?).getD 0
  match extract_attr element "width", extract_attr element "height" with
  | some ws, some hs =>
    match parseNumber? ws, parseNumber? hs with
    | some w, some h =>
      some { d := rectD x y w h, fill := extract_attr element "fill"
             stroke := none, stroke_width := none }
    | _, _ => none
  | _, _ => none

/-- The `points` attribute split on whitespace/commas, empty pieces
dropped, unparseable pieces filtered out. -/
def splitPoints (s : String) : List ℚ :=
  ((s.split fun c => c.isWhitespace ∨ c = ',').filter fun p => ¬p.isEmpty).filterMap
    parseNumber?

/-- The ` L{x},{y}` tail of a polygon path for the points after the first
pair (a trailing odd coordinate is ignored, as in the `i + 1 < len`
guard). -/
def polyTail : List ℚ → String
  | a :: b :: rest => " L" ++ formatQ a ++ "," ++ formatQ b ++ polyTail rest
  | _ => ""

/-- The path-data string synthesized for a `polygon` element. -/
def polygonD (points : List ℚ) : String :=
  "M" ++ formatQ (points.getD 0 0) ++ "," ++ formatQ (points.getD 1 0) ++
  polyTail (points.drop 2) ++ " Z"

/-- The `polygon` arm of `parse_svg_content`: requires `points` with at
least four parsed coordinates; only `fill` is carried onto the record. -/
def polygonToRecord (element : String) : Option ParsedPath :=
  match extract_attr element "points" with
  | some pointsStr =>
    let points := splitPoints pointsStr
    if 4 ≤ points.length then
      some { d := polygonD points, fill := extract_attr element "fill"
             stroke := none, stroke_width := none }
    else none
  | none => none

/-! ## Shared concrete collaborators for the tessellation theorems -/

/-- An arc flattener that emits nothing (no input below contains an arc,
so its value is never consulted). -/
def noArcs : ArcFlattener := fun _ => []

/-- A fill tessellator that rejects every path. -/
def failFill : FillTess := fun _ _ => .error "fail"

/-- A stroke tessellator that rejects every path. -/
def failStroke : StrokeTess := fun _ _ _ => .error "fail"

/-- A one-path document whose path is both filled and stroked. -/
def svgOneTriangle : ParsedSvg :=
  { width := 24, height := 24, view_box := none
    paths := [{ fill := some "red", stroke := some "black", stroke_width := some 1
                d := "M0,0 L10,0 L10,10 Z" }] }

end Glade

deriving instance DecidableEq for Except

namespace Glade

/-! ## C1 — operand underflow -/

/-- C1 counterexample: the claim asserts that EVERY command whose operand
count is unsatisfied at end of stream is still emitted in full.  On
`d = "M0,0 L"` the stream ends with the `L` letter itself as the final
token: the loop breaks before dispatching and no `LineTo` is emitted at
all — the command is truncated away, contradicting the claim. -/
theorem c1_trailing_letter_no_directive :
    parse_svg_path_d "M0,0 L" = [.moveTo 0 0 false] := by decide

/-- C1 (amended): if the token stream ends before a command's operand
count is satisfied, each missing operand defaults to `0.0` and the
directive is emitted — provided the command's letter is not itself the
final token of the stream (a trailing non-`Z` command letter is dropped
without emitting anything).  In particular `"M0,0 L10"` yields a `LineTo`
with `y = 0`; `parse_number` past the end of the stream returns `0.0`
without consuming; and a trailing non-`Z` command letter ends the loop
with no directive. -/
theorem c1_operand_underflow :
    parse_svg_path_d "M0,0 L10" = [.moveTo 0 0 false, .lineTo 10 0 false] ∧
    (∀ (tokens : List String) (i : ℕ), tokens.length ≤ i →
      parse_number tokens i = (0, i)) ∧
    (∀ (tokens : List String) (fuel i : ℕ) (cmd : Char),
      tokens.length = i + 1 → isCommand (tokens.getD i "") = true →
      ((tokens.getD i "").front).toUpper ≠ 'Z' →
      parseLoop tokens (fuel + 1) i cmd = []) := by
  refine ⟨by decide, ?_, ?_⟩
  · intro tokens i h
    simp [parse_number, h]
  · intro tokens fuel i cmd hlen hcmd hz
    have h1 : i < tokens.length := by omega
    have h2 : tokens.length ≤ i + 1 := by omega
    simp only [parseLoop]
    rw [if_pos h1, if_pos hcmd, if_pos ⟨h2, hz⟩]

/-- C1 witness: the amended theorem applied at concrete inputs. -/
theorem c1_operand_underflow_witness :
    parse_svg_path_d "M0,0 L10" = [.moveTo 0 0 false, .lineTo 10 0 false] ∧
    parse_number [] 0 = (0, 0) ∧
    parseLoop ["L"] 1 0 'M' = [] :=
  ⟨c1_operand_underflow.1,
   c1_operand_underflow.2.1 [] 0 (by decide),
   c1_operand_underflow.2.2 ["L"] 0 0 'M' (by decide) (by decide) (by decide)⟩

/-! ## C2 — tessellation-failure propagation -/

/-- C2 counterexample: with a tessellator that rejects the (non-`"none"`
filled and stroked) path of `svgOneTriangle`, `tessellate_svg` still
returns success with an empty mesh list instead of an error — the failure
is swallowed, contradicting the claim for `tessellate_svg`. -/
theorem c2_tessellate_svg_swallows :
    failFill (1 / 10)
        (build_lyon_path noArcs (parse_svg_path_d "M0,0 L10,0 L10,10 Z") 0 0 1 1) =
      .error "fail" ∧
    tessellate_svg noArcs failFill failStroke svgOneTriangle 24 24 = .ok [] := by
  constructor
  · rfl
  · decide

/-- C2 (amended): a tessellation failure is propagated as an explicit
error by `tessellate_path` and `tessellate_stroke`; `tessellate_svg`
instead silently omits the failed path's mesh and returns success. -/
theorem c2_path_stroke_propagate (arcF : ArcFlattener) (fillT : FillTess)
    (strokeT : StrokeTess) (d : String) (w ox oy sx sy : ℚ) (e e' : String)
    (hf : fillT (1 / 10) (build_lyon_path arcF (parse_svg_path_d d) ox oy sx sy) =
      .error e)
    (hs : strokeT (w * max sx sy) (1 / 10)
        (build_lyon_path arcF (parse_svg_path_d d) ox oy sx sy) = .error e') :
    tessellate_path arcF fillT d ox oy sx sy = .error ("Tessellation error: " ++ e) ∧
    tessellate_stroke arcF strokeT d w ox oy sx sy =
      .error ("Tessellation error: " ++ e') := by
  constructor
  · simp only [tessellate_path, hf]
  · simp only [tessellate_stroke, hs]

/-- C2 witness: propagation at a concrete failing tessellator. -/
theorem c2_path_stroke_propagate_witness :
    tessellate_path noArcs failFill "M0,0 L10,0 L10,10 Z" 0 0 1 1 =
      .error "Tessellation error: fail" ∧
    tessellate_stroke noArcs failStroke "M0,0 L10,0 L10,10 Z" 1 0 0 1 1 =
      .error "Tessellation error: fail" :=
  c2_path_stroke_propagate noArcs failFill failStroke "M0,0 L10,0 L10,10 Z"
    1 0 0 1 1 "fail" "fail" rfl rfl

/-! ## C3 — scientific notation in the tokenizer -/

/-- C3 (code bug): the claim (and the spec) state that `e`/`E` inside a
numeric token is consumed into the token together with a following sign.
In the source the leading `is_ascii_alphabetic` branch captures `e`/`E`
first, so the dedicated branch is unreachable: `"1e5"` lexes as three
tokens and `"2E-3"` as three tokens, the letter standing alone. -/
theorem c3_exponent_split :
    tokenize_svg_path "1e5" = ["1", "e", "5"] ∧
    tokenize_svg_path "2E-3" = ["2", "E", "-3"] := by decide

/-! ## C4 — unknown command letters -/

/-! ## C5 — smooth-curve reflection -/

/-- The command letter `build_lyon_path` records in `last_cmd_type` after
processing each command. -/
def cmdChar : SvgCommand → Char
  | .moveTo .. => 'M'
  | .lineTo .. => 'L'
  | .hLineTo .. => 'H'
  | .vLineTo .. => 'V'
  | .cubicTo .. => 'C'
  | .smoothCubicTo .. => 'S'
  | .quadTo .. => 'Q'
  | .smoothQuadTo .. => 'T'
  | .arcTo .. => 'A'
  | .close => 'Z'

/-- C5: the first control point an `S` (smooth cubic) command uses is the
reflection `2*current − lastControl` exactly when the last processed
command was `C` or `S`, and the current pen position otherwise; a `T`
(smooth quadratic) command behaves analogously gated on `Q`/`T`; and the
state's `lastCmd` always records the letter of the command just processed
(so `lastCmd` is the "immediately preceding command", including `none` at
the start of the path). -/
theorem c5_smooth_reflection (arcF : ArcFlattener) (ox oy sx sy : ℚ)
    (s : BuildState) (x2 y2 x y : ℚ) (rel : Bool) :
    (buildStep arcF ox oy sx sy s (.smoothCubicTo x2 y2 x y rel)).2 =
      [PathEvent.cubicTo
        ((if s.lastCmd = some 'C' ∨ s.lastCmd = some 'S' then
            2 * s.curX - s.lastCtrlX else s.curX) * sx + ox)
        ((if s.lastCmd = some 'C' ∨ s.lastCmd = some 'S' then
            2 * s.curY - s.lastCtrlY else s.curY) * sy + oy)
        ((if rel then s.curX + x2 else x2) * sx + ox)
        ((if rel then s.curY + y2 else y2) * sy + oy)
        ((if rel then s.curX + x else x) * sx + ox)
        ((if rel then s.curY + y else y) * sy + oy)] ∧
    (buildStep arcF ox oy sx sy s (.smoothQuadTo x y rel)).2 =
      [PathEvent.quadTo
        ((if s.lastCmd = some 'Q' ∨ s.lastCmd = some 'T' then
            2 * s.curX - s.lastCtrlX else s.curX) * sx + ox)
        ((if s.lastCmd = some 'Q' ∨ s.lastCmd = some 'T' then
            2 * s.curY - s.lastCtrlY else s.curY) * sy + oy)
        ((if rel then s.curX + x else x) * sx + ox)
        ((if rel then s.curY + y else y) * sy + oy)] ∧
    (∀ c : SvgCommand,
      ((buildStep arcF ox oy sx sy s c).1).lastCmd = some (cmdChar c)) := by
  refine ⟨rfl, rfl, ?_⟩
  intro c
  cases c <;> simp only [buildStep, cmdChar] <;> split <;> rfl

/-! ## C6 — Close resets the pen to the subpath start -/

/-- C6: processing `Close` moves the pen back to the recorded subpath
start (and only `MoveTo` ever changes that recorded start, so it is the
target of the most recent `MoveTo`); consequently a relative `LineTo`
emitted immediately after a `Close` resolves its endpoint from the
subpath-start point, not from the pen position that preceded the
`Close`. -/
theorem c6_close_resets_pen (arcF : ArcFlattener) (ox oy sx sy : ℚ)
    (s : BuildState) (x y : ℚ) :
    buildStep arcF ox oy sx sy s .close =
      ({ s with curX := s.startX, curY := s.startY, lastCmd := some 'Z' },
       [.close]) ∧
    (∀ c : SvgCommand,
      (((buildStep arcF ox oy sx sy s c).1).startX,
       ((buildStep arcF ox oy sx sy s c).1).startY) =
      match c with
      | .moveTo mx my rel =>
        (if rel then s.curX + mx else mx, if rel then s.curY + my else my)
      | _ => (s.startX, s.startY)) ∧
    (buildStep arcF ox oy sx sy
        (buildStep arcF ox oy sx sy s .close).1 (.lineTo x y true)).2 =
      [.lineTo ((s.startX + x) * sx + ox) ((s.startY + y) * sy + oy)] := by
  refine ⟨rfl, ?_, rfl⟩
  intro c
  cases c <;> simp only [buildStep] <;> split <;> rfl

/-! ## C9 — mesh bounds -/

theorem foldl_min_le_init (l : List ℚ) (a : ℚ) : l.foldl min a ≤ a := by
  induction l generalizing a with
  | nil => exact le_refl a
  | cons x xs ih => exact le_trans (ih (min a x)) (min_le_left a x)

theorem foldl_min_le_mem (l : List ℚ) (a x : ℚ) (hx : x ∈ l) : l.foldl min a ≤ x := by
  induction l generalizing a with
  | nil => cases hx
  | cons y ys ih =>
    rcases List.mem_cons.mp hx with h | h
    · subst h
      exact le_trans (foldl_min_le_init ys (min a x)) (min_le_right a x)
    · exact ih (min a y) h

theorem foldl_min_eq_or_mem (l : List ℚ) (a : ℚ) :
    l.foldl min a = a ∨ l.foldl min a ∈ l := by
  induction l generalizing a with
  | nil => exact Or.inl rfl
  | cons y ys ih =>
    rcases ih (min a y) with h | h
    · rcases min_cases a y with ⟨hm, _⟩ | ⟨hm, _⟩
      · exact Or.inl (by rw [List.foldl_cons, h, hm])
      · exact Or.inr (by rw [List.foldl_cons, h, hm]; exact List.mem_cons_self y ys)
    · exact Or.inr (List.mem_cons_of_mem y h)

theorem le_foldl_max_init (l : List ℚ) (a : ℚ) : a ≤ l.foldl max a := by
  induction l generalizing a with
  | nil => exact le_refl a
  | cons x xs ih => exact le_trans (le_max_left a x) (ih (max a x))

theorem le_foldl_max_mem (l : List ℚ) (a x : ℚ) (hx : x ∈ l) : x ≤ l.foldl max a := by
  induction l generalizing a with
  | nil => cases hx
  | cons y ys ih =>
    rcases List.mem_cons.mp hx with h | h
    · subst h
      exact le_trans (le_max_right a x) (le_foldl_max_init ys (max a x))
    · exact ih (max a y) h

theorem foldl_max_eq_or_mem (l : List ℚ) (a : ℚ) :
    l.foldl max a = a ∨ l.foldl max a ∈ l := by
  induction l generalizing a with
  | nil => exact Or.inl rfl
  | cons y ys ih =>
    rcases ih (max a y) with h | h
    · rcases max_cases a y with ⟨hm, _⟩ | ⟨hm, _⟩
      · exact Or.inl (by rw [List.foldl_cons, h, hm])
      · exact Or.inr (by rw [List.foldl_cons, h, hm]; exact List.mem_cons_self y ys)
    · exact Or.inr (List.mem_cons_of_mem y h)

/-- The bound accumulation of `build_mesh` componentwise: each field of
the folded `MeshBounds` is a `min`/`max` fold over the respective vertex
coordinate. -/
theorem foldl_expand_eq (vs : List TessVertex) (b : MeshBounds) :
    vs.foldl (fun b v => b.expand v.x v.y) b =
      { min_x := (vs.map TessVertex.x).foldl min b.min_x
        min_y := (vs.map TessVertex.y).foldl min b.min_y
        max_x := (vs.map TessVertex.x).foldl max b.max_x
        max_y := (vs.map TessVertex.y).foldl max b.max_y } := by
  induction vs generalizing b with
  | nil => rfl
  | cons v vs ih => rw [List.foldl_cons, ih]; rfl

/-- C9: a mesh assembled from an empty vertex buffer reports the all-zero
rectangle (never the inverted sentinel); a mesh assembled from a nonempty
vertex buffer (with coordinates in the `f32` range) reports as bounds
exactly the running minimum and maximum over all vertex coordinates:
every vertex lies inside the reported bounds and each of the four bound
values is attained by some vertex. -/
theorem c9_bounds (vs : List TessVertex) (idx : List ℕ) :
    build_mesh ⟨[], idx⟩ = ⟨[], idx, MeshBounds.zeroed⟩ ∧
    (vs ≠ [] → (∀ v ∈ vs, |v.x| ≤ f32Max ∧ |v.y| ≤ f32Max) →
      ((∀ v ∈ vs,
          (build_mesh ⟨vs, idx⟩).bounds.min_x ≤ v.x ∧
          (build_mesh ⟨vs, idx⟩).bounds.min_y ≤ v.y ∧
          v.x ≤ (build_mesh ⟨vs, idx⟩).bounds.max_x ∧
          v.y ≤ (build_mesh ⟨vs, idx⟩).bounds.max_y) ∧
       (∃ v ∈ vs, v.x = (build_mesh ⟨vs, idx⟩).bounds.min_x) ∧
       (∃ v ∈ vs, v.y = (build_mesh ⟨vs, idx⟩).bounds.min_y) ∧
       (∃ v ∈ vs, v.x = (build_mesh ⟨vs, idx⟩).bounds.max_x) ∧
       (∃ v ∈ vs, v.y = (build_mesh ⟨vs, idx⟩).bounds.max_y))) := by
  constructor
  · simp only [build_mesh, List.foldl_nil]
    norm_num [MeshBounds.sentinel, MeshBounds.is_valid, MeshBounds.zeroed, f32Max]
  · intro hne hrange
    obtain ⟨v0, hv0⟩ := List.exists_mem_of_ne_nil vs hne
    have hsent : ∀ v ∈ vs, v.x ≤ f32Max ∧ v.y ≤ f32Max ∧
        -f32Max ≤ v.x ∧ -f32Max ≤ v.y := by
      intro v hv
      obtain ⟨hx, hy⟩ := hrange v hv
      exact ⟨le_of_abs_le hx, le_of_abs_le hy, neg_le_of_abs_le hx, neg_le_of_abs_le hy⟩
    -- the accumulated box, before the validity replacement
    have hacc := foldl_expand_eq vs MeshBounds.sentinel
    have hminx_le : ∀ v ∈ vs,
        (vs.map TessVertex.x).foldl min f32Max ≤ v.x := fun v hv =>
      foldl_min_le_mem _ _ _ (List.mem_map_of_mem TessVertex.x hv)
    have hminy_le : ∀ v ∈ vs,
        (vs.map TessVertex.y).foldl min f32Max ≤ v.y := fun v hv =>
      foldl_min_le_mem _ _ _ (List.mem_map_of_mem TessVertex.y hv)
    have hmaxx_ge : ∀ v ∈ vs,
        v.x ≤ (vs.map TessVertex.x).foldl max (-f32Max) := fun v hv =>
      le_foldl_max_mem _ _ _ (List.mem_map_of_mem TessVertex.x hv)
    have hmaxy_ge : ∀ v ∈ vs,
        v.y ≤ (vs.map TessVertex.y).foldl max (-f32Max) := fun v hv =>
      le_foldl_max_mem _ _ _ (List.mem_map_of_mem TessVertex.y hv)
    have hvalid :
        ((vs.foldl (fun b v => b.expand v.x v.y) MeshBounds.sentinel).is_valid) = true := by
      rw [hacc]
      simp only [MeshBounds.is_valid, MeshBounds.sentinel, decide_eq_true_eq]
      constructor
      · exact le_trans (hminx_le v0 hv0) (hmaxx_ge v0 hv0)
      · exact le_trans (hminy_le v0 hv0) (hmaxy_ge v0 hv0)
    have hmesh : (build_mesh ⟨vs, idx⟩).bounds =
        if (vs.foldl (fun b v => b.expand v.x v.y) MeshBounds.sentinel).is_valid
        then vs.foldl (fun b v => b.expand v.x v.y) MeshBounds.sentinel
        else MeshBounds.zeroed := rfl
    have hbounds : (build_mesh ⟨vs, idx⟩).bounds =
        { min_x := (vs.map TessVertex.x).foldl min f32Max
          min_y := (vs.map TessVertex.y).foldl min f32Max
          max_x := (vs.map TessVertex.x).foldl max (-f32Max)
          max_y := (vs.map TessVertex.y).foldl max (-f32Max) } := by
      rw [hmesh, if_pos hvalid, hacc]; rfl
    -- attainment: either the fold result is in the list, or it equals the
    -- sentinel, in which case some member equals the sentinel value too
    have attainMin : ∀ (f : TessVertex → ℚ),
        (∀ v ∈ vs, f v ≤ f32Max) →
        ∃ v ∈ vs, f v = (vs.map f).foldl min f32Max := by
      intro f hle
      rcases foldl_min_eq_or_mem (vs.map f) f32Max with h | h
      · refine ⟨v0, hv0, le_antisymm ?_ ?_⟩
        · rw [h]; exact hle v0 hv0
        · exact foldl_min_le_mem _ _ _ (List.mem_map_of_mem f hv0)
      · obtain ⟨v, hv, hfv⟩ := List.mem_map.mp h
        exact ⟨v, hv, hfv.symm ▸ rfl⟩
    have attainMax : ∀ (f : TessVertex → ℚ),
        (∀ v ∈ vs, -f32Max ≤ f v) →
        ∃ v ∈ vs, f v = (vs.map f).foldl max (-f32Max) := by
      intro f hle
      rcases foldl_max_eq_or_mem (vs.map f) (-f32Max) with h | h
      · refine ⟨v0, hv0, le_antisymm ?_ ?_⟩
        · exact le_foldl_max_mem _ _ _ (List.mem_map_of_mem f hv0)
        · rw [h]; exact hle v0 hv0
      · obtain ⟨v, hv, hfv⟩ := List.mem_map.mp h
        exact ⟨v, hv, hfv.symm ▸ rfl⟩
    rw [hbounds]
    refine ⟨fun v hv => ⟨hminx_le v hv, hminy_le v hv, hmaxx_ge v hv, hmaxy_ge v hv⟩,
      ?_, ?_, ?_, ?_⟩
    · exact attainMin TessVertex.x fun v hv => (hsent v hv).1
    · exact attainMin TessVertex.y fun v hv => (hsent v hv).2.1
    · exact attainMax TessVertex.x fun v hv => (hsent v hv).2.2.1
    · exact attainMax TessVertex.y fun v hv => (hsent v hv).2.2.2

set_option maxRecDepth 4000 in
/-- C9 witness: the theorem applied to an empty and to a concrete
two-vertex buffer. -/
theorem c9_bounds_witness :
    build_mesh ⟨[], [0, 1, 2]⟩ = ⟨[], [0, 1, 2], MeshBounds.zeroed⟩ ∧
    (∃ v ∈ [TessVertex.mk 0 0 1, TessVertex.mk 10 5 1],
      v.x = (build_mesh ⟨[TessVertex.mk 0 0 1, TessVertex.mk 10 5 1],
        [0, 1, 2]⟩).bounds.min_x) :=
  ⟨(c9_bounds [] [0, 1, 2]).1,
   (((c9_bounds [TessVertex.mk 0 0 1, TessVertex.mk 10 5 1] [0, 1, 2]).2
      (by decide) (by decide)).2).1⟩

/-! ## Interpreter-loop step lemmas (shared by the parsing theorems) -/

/-- One loop iteration on a non-command token: the current command is
dispatched without consuming a letter. -/
theorem parseLoop_noncmd (tokens : List String) (fuel i : ℕ) (cmd : Char)
    (hi : i < tokens.length) (hc : isCommand (tokens.getD i "") = false) :
    parseLoop tokens (fuel + 1) i cmd =
      (dispatch tokens i cmd).1 ++
        parseLoop tokens fuel (dispatch tokens i cmd).2.1
          (dispatch tokens i cmd).2.2 := by
  simp only [parseLoop]
  rw [if_pos hi, if_neg (by simpa using hc)]

/-- One loop iteration on a command-letter token that does not trigger the
end-of-stream break: the letter is consumed and dispatched. -/
theorem parseLoop_cmd (tokens : List String) (fuel i : ℕ) (cmd : Char)
    (hi : i < tokens.length) (hc : isCommand (tokens.getD i "") = true)
    (hnb : ¬(tokens.length ≤ i + 1 ∧ ((tokens.getD i "").front).toUpper ≠ 'Z')) :
    parseLoop tokens (fuel + 1) i cmd =
      (dispatch tokens (i + 1) (tokens.getD i "").front).1 ++
        parseLoop tokens fuel
          (dispatch tokens (i + 1) (tokens.getD i "").front).2.1
          (dispatch tokens (i + 1) (tokens.getD i "").front).2.2 := by
  simp only [parseLoop]
  rw [if_pos hi, if_pos hc, if_neg hnb]

/-- Dispatching `M` with at least one token left consumes two operand
slots and switches the repeat command to `L`. -/
theorem dispatch_M (tokens : List String) (i : ℕ) (h : i + 2 ≤ tokens.length) :
    dispatch tokens i 'M' =
      ([.moveTo ((parseNumber? (tokens.getD i "")).getD 0)
               ((parseNumber? (tokens.getD (i + 1) "")).getD 0) false], i + 2, 'L') := by
  have h1 : ¬(tokens.length ≤ i) := by omega
  have h2 : ¬(tokens.length ≤ i + 1) := by omega
  simp [dispatch, parse_number, h1, h2]

/-- Dispatching `L` consumes two operand slots. -/
theorem dispatch_L (tokens : List String) (i : ℕ) (h : i + 2 ≤ tokens.length) :
    dispatch tokens i 'L' =
      ([.lineTo ((parseNumber? (tokens.getD i "")).getD 0)
               ((parseNumber? (tokens.getD (i + 1) "")).getD 0) false], i + 2, 'L') := by
  have h1 : ¬(tokens.length ≤ i) := by omega
  have h2 : ¬(tokens.length ≤ i + 1) := by omega
  simp [dispatch, parse_number, h1, h2]

/-- Dispatching `Z` consumes nothing and emits `Close`. -/
theorem dispatch_Z (tokens : List String) (i : ℕ) :
    dispatch tokens i 'Z' = ([.close], i, 'Z') := by
  simp [dispatch]

/-! ## C10 — leading bare numbers act as an absolute MoveTo -/

/-- C10: the interpreter starts with current command `'M'` (absolute), so
a token stream beginning with a non-command token emits an absolute
`MoveTo` from the first two tokens and continues with repeat command
`'L'`; and under repeat command `'L'` every further bare (non-command)
token pair emits an absolute `LineTo`. -/
theorem c10_leading_numbers :
    (∀ d : String, 2 ≤ (tokenize_svg_path d).length →
      isCommand ((tokenize_svg_path d).getD 0 "") = false →
      parse_svg_path_d d =
        .moveTo ((parseNumber? ((tokenize_svg_path d).getD 0 "")).getD 0)
                ((parseNumber? ((tokenize_svg_path d).getD 1 "")).getD 0) false ::
          parseLoop (tokenize_svg_path d) (tokenize_svg_path d).length 2 'L') ∧
    (∀ (tokens : List String) (fuel i : ℕ), i + 2 ≤ tokens.length →
      isCommand (tokens.getD i "") = false →
      parseLoop tokens (fuel + 1) i 'L' =
        .lineTo ((parseNumber? (tokens.getD i "")).getD 0)
                ((parseNumber? (tokens.getD (i + 1) "")).getD 0) false ::
          parseLoop tokens fuel (i + 2) 'L') := by
  constructor
  · intro d hlen hc
    have hne : (tokenize_svg_path d).isEmpty = false := by
      cases hts : tokenize_svg_path d with
      | nil => rw [hts] at hlen; simp at hlen
      | cons a l => simp
    show (if (tokenize_svg_path d).isEmpty then []
          else parseLoop (tokenize_svg_path d) ((tokenize_svg_path d).length + 1) 0 'M') = _
    rw [hne]
    rw [parseLoop_noncmd _ _ _ _ (by omega) hc,
        dispatch_M _ _ (by omega)]
    simp
  · intro tokens fuel i hlen hc
    rw [parseLoop_noncmd _ _ _ _ (by omega) hc,
        dispatch_L _ _ (by omega)]
    simp

/-- C10 witness: `d = "0 0 10 10"` — two bare pairs become an absolute
`MoveTo` then an absolute `LineTo`. -/
theorem c10_leading_numbers_witness :
    parse_svg_path_d "0 0 10 10" =
      .moveTo ((parseNumber? ((tokenize_svg_path "0 0 10 10").getD 0 "")).getD 0)
              ((parseNumber? ((tokenize_svg_path "0 0 10 10").getD 1 "")).getD 0) false ::
        parseLoop (tokenize_svg_path "0 0 10 10")
          (tokenize_svg_path "0 0 10 10").length 2 'L' ∧
    parseLoop ["0", "0", "10", "10"] 3 2 'L' =
      .lineTo ((parseNumber? (["0", "0", "10", "10"].getD 2 "")).getD 0)
              ((parseNumber? (["0", "0", "10", "10"].getD 3 "")).getD 0) false ::
        parseLoop ["0", "0", "10", "10"] 2 4 'L' :=
  ⟨c10_leading_numbers.1 "0 0 10 10" (by decide) (by decide),
   c10_leading_numbers.2 ["0", "0", "10", "10"] 2 2 (by decide) (by decide)⟩

/-! ## Tokenizer lemmas: a plain decimal literal lexes as one token -/

/-- A character that may occur in the body of a numeric token. -/
def numBodyChar (c : Char) : Bool :=
  c ∈ ['0', '1', '2', '3', '4', '5', '6', '7', '8', '9', '.']

/-- The shape of tokens the tokenizer keeps in one piece: nonempty, an
optional leading `-`, body of digits and at most one `.`. -/
def isNumericToken (s : String) : Bool :=
  ¬s.data.isEmpty ∧
  (numBodyChar (s.data.headD ' ') ∨ s.data.headD ' ' = '-') ∧
  s.data.tail.all numBodyChar ∧ s.data.count '.' ≤ 1

/-- One tokenizer step on a digit: the digit joins the pending buffer. -/
theorem tokLoop_digit_step (c : Char) (hd : c.isDigit = true) (hna : c.isAlpha = false)
    (hnm : c ≠ '-') (hnd : c ≠ '.') (fuel : ℕ) (rest cur : List Char) :
    tokLoop (fuel + 1) (c :: rest) cur = tokLoop fuel rest (cur ++ [c]) := by
  simp only [tokLoop]
  rw [if_neg (by simp [hna]), if_neg hnm, if_neg hnd, if_pos hd]

/-- Feeding a run of digit/dot characters to the tokenizer loop extends
the pending buffer without emitting a token, provided at most one dot is
seen in total. -/
theorem tokLoop_num (t : List Char) : ∀ (fuel : ℕ) (cur cs : List Char),
    t.all numBodyChar = true → cur.count '.' + t.count '.' ≤ 1 →
    tokLoop (fuel + t.length) (t ++ cs) cur = tokLoop fuel cs (cur ++ t) := by
  induction t with
  | nil => intro fuel cur cs _ _; simp
  | cons c t ih =>
    intro fuel cur cs hall hcount
    have hsplit : numBodyChar c = true ∧ t.all numBodyChar = true := by
      simpa using hall
    have hmem : c ∈ ['0', '1', '2', '3', '4', '5', '6', '7', '8', '9', '.'] :=
      of_decide_eq_true hsplit.1
    have hallt := hsplit.2
    fin_cases hmem <;>
      first
      | -- digit characters
        (simp only [List.length_cons, List.cons_append, ← Nat.add_assoc]
         rw [tokLoop_digit_step _ (by decide) (by decide) (by decide) (by decide),
             ih _ _ _ hallt
               (by simp only [List.count_append, List.count_cons] at hcount ⊢
                   simp at hcount ⊢
                   omega),
             List.append_assoc]
         rfl)
      | -- the dot
        (have hcnt : cur.count '.' = 0 ∧ t.count '.' = 0 := by
           rw [List.count_cons_self] at hcount
           omega
         have hnotmem : '.' ∉ cur := List.count_eq_zero.mp hcnt.1
         simp only [List.length_cons, List.cons_append, ← Nat.add_assoc]
         simp [tokLoop, hnotmem]
         rw [ih _ _ _ hallt (by simp [List.count_append, hcnt.1, hcnt.2])]
         simp)

/-- A numeric-shaped token fed to the loop from an empty buffer ends up
as the pending buffer, with the rest of the input still to process. -/
theorem tokLoop_numToken (s : String) (hs : isNumericToken s = true)
    (fuel : ℕ) (cs : List Char) :
    tokLoop (fuel + s.data.length) (s.data ++ cs) [] = tokLoop fuel cs s.data := by
  obtain ⟨hne, hc, hrest, hcnt⟩ := of_decide_eq_true hs
  rcases hd : s.data with _ | ⟨c, rest⟩
  · exact absurd (by simp [hd]) hne
  · rw [hd] at hc hrest hcnt
    simp only [List.headD_cons, List.tail_cons] at hc hrest
    rcases hc with hc | hc
    · -- head is a body char: the whole data is a numeric run
      have hall : (c :: rest).all numBodyChar = true := by
        simp only [List.all_cons, Bool.and_eq_true]
        exact ⟨hc, hrest⟩
      have h := tokLoop_num (c :: rest) fuel [] cs hall (by simpa using hcnt)
      simpa using h
    · -- head is '-': one explicit step, then the numeric run
      subst hc
      have h := tokLoop_num rest fuel ['-'] cs hrest
        (by simp only [List.count_cons] at hcnt; simp at hcnt ⊢; omega)
      show tokLoop ((fuel + rest.length) + 1) ('-' :: (rest ++ cs)) [] = _
      simp [tokLoop]
      simpa using h

/-- A numeric token is never a command token. -/
theorem isNumericToken_not_command (s : String) (hs : isNumericToken s = true) :
    isCommand s = false := by
  cases hq : isCommand s
  · rfl
  · exfalso
    have := of_decide_eq_true hq
    rcases this with rfl | rfl | rfl | rfl | rfl | rfl | rfl | rfl | rfl | rfl | rfl | rfl |
      rfl | rfl | rfl | rfl | rfl | rfl | rfl | rfl <;> revert hs <;> decide

/-- A numeric token is nonempty. -/
theorem isNumericToken_ne_nil (s : String) (hs : isNumericToken s = true) :
    s.data ≠ [] := by
  obtain ⟨hne, -, -, -⟩ := of_decide_eq_true hs
  intro h
  exact hne (by simp [h])

/-- Canonical-fuel step: a numeric token at the head of the input. -/
theorem tokLoop_numToken_can (s : String) (hs : isNumericToken s = true)
    (cs : List Char) :
    tokLoop ((s.data ++ cs).length + 1) (s.data ++ cs) [] =
      tokLoop (cs.length + 1) cs s.data := by
  have h : (s.data ++ cs).length + 1 = (cs.length + 1) + s.data.length := by
    simp [List.length_append]; omega
  rw [h]
  exact tokLoop_numToken s hs (cs.length + 1) cs

/-- Canonical-fuel step: a comma flushes the pending numeric buffer. -/
theorem tokLoop_comma_can (s : String) (hne : s.data ≠ []) (cs : List Char) :
    tokLoop ((',' :: cs).length + 1) (',' :: cs) s.data =
      s :: tokLoop (cs.length + 1) cs [] := by
  show tokLoop ((cs.length + 1) + 1) (',' :: cs) s.data = _
  simp [tokLoop, hne]

/-- Canonical-fuel step: a space flushes the pending numeric buffer. -/
theorem tokLoop_space_can (s : String) (hne : s.data ≠ []) (cs : List Char) :
    tokLoop ((' ' :: cs).length + 1) (' ' :: cs) s.data =
      s :: tokLoop (cs.length + 1) cs [] := by
  show tokLoop ((cs.length + 1) + 1) (' ' :: cs) s.data = _
  simp [tokLoop, hne]

/-- Canonical-fuel step: a letter on an empty buffer is its own token. -/
theorem tokLoop_letter_can (c : Char) (hc : c.isAlpha = true) (cs : List Char) :
    tokLoop ((c :: cs).length + 1) (c :: cs) [] =
      c.toString :: tokLoop (cs.length + 1) cs [] := by
  show tokLoop ((cs.length + 1) + 1) (c :: cs) [] = _
  simp [tokLoop, hc]

/-- Canonical-fuel step: end of input with an empty buffer. -/
theorem tokLoop_nil_can : tokLoop (([] : List Char).length + 1) ([] : List Char) [] = [] :=
  rfl

/-! ## C7 — the rect-synthesized path -/

/-- The interpreter on the token stream of a rect path: the loop only
inspects the command-letter tokens, so the numeric tokens stay symbolic. -/
theorem parseRectTokens (a b c d e f g h : String) :
    parseLoop ["M", a, b, "L", c, d, "L", e, f, "L", g, h, "Z"] 14 0 'M' =
      [.moveTo ((parseNumber? a).getD 0) ((parseNumber? b).getD 0) false,
       .lineTo ((parseNumber? c).getD 0) ((parseNumber? d).getD 0) false,
       .lineTo ((parseNumber? e).getD 0) ((parseNumber? f).getD 0) false,
       .lineTo ((parseNumber? g).getD 0) ((parseNumber? h).getD 0) false,
       .close] := rfl

/-- Tokenizing the `d` string synthesized for a rect yields exactly the
thirteen expected tokens whenever the four rendered values are
numeric-shaped. -/
theorem tokenize_rectD (x y w h : ℚ)
    (hx : isNumericToken (formatQ x) = true) (hy : isNumericToken (formatQ y) = true)
    (hxw : isNumericToken (formatQ (x + w)) = true)
    (hyh : isNumericToken (formatQ (y + h)) = true) :
    tokenize_svg_path (rectD x y w h) =
      ["M", formatQ x, formatQ y, "L", formatQ (x + w), formatQ y, "L",
       formatQ (x + w), formatQ (y + h), "L", formatQ x, formatQ (y + h), "Z"] := by
  have hd : (rectD x y w h).data =
      'M' :: ((formatQ x).data ++ ',' :: ((formatQ y).data ++ ' ' :: 'L' ::
        ((formatQ (x + w)).data ++ ',' :: ((formatQ y).data ++ ' ' :: 'L' ::
          ((formatQ (x + w)).data ++ ',' :: ((formatQ (y + h)).data ++ ' ' :: 'L' ::
            ((formatQ x).data ++ ',' :: ((formatQ (y + h)).data ++
              ' ' :: 'Z' :: [])))))))) := by
    simp [rectD, String.data_append,
          show ("M" : String).data = ['M'] from rfl,
          show ("," : String).data = [','] from rfl,
          show (" L" : String).data = [' ', 'L'] from rfl,
          show (" Z" : String).data = [' ', 'Z'] from rfl]
  show tokLoop ((rectD x y w h).data.length + 1) (rectD x y w h).data [] = _
  rw [hd]
  rw [tokLoop_letter_can 'M' (by decide), tokLoop_numToken_can _ hx,
      tokLoop_comma_can _ (isNumericToken_ne_nil _ hx),
      tokLoop_numToken_can _ hy, tokLoop_space_can _ (isNumericToken_ne_nil _ hy),
      tokLoop_letter_can 'L' (by decide), tokLoop_numToken_can _ hxw,
      tokLoop_comma_can _ (isNumericToken_ne_nil _ hxw),
      tokLoop_numToken_can _ hy, tokLoop_space_can _ (isNumericToken_ne_nil _ hy),
      tokLoop_letter_can 'L' (by decide), tokLoop_numToken_can _ hxw,
      tokLoop_comma_can _ (isNumericToken_ne_nil _ hxw),
      tokLoop_numToken_can _ hyh, tokLoop_space_can _ (isNumericToken_ne_nil _ hyh),
      tokLoop_letter_can 'L' (by decide), tokLoop_numToken_can _ hx,
      tokLoop_comma_can _ (isNumericToken_ne_nil _ hx),
      tokLoop_numToken_can _ hyh, tokLoop_space_can _ (isNumericToken_ne_nil _ hyh),
      tokLoop_letter_can 'Z' (by decide), tokLoop_nil_can]
  rfl

/-- C7 counterexample: for `rect(x=0, y=0, width=10, height=5)` the
synthesized path interprets to a `MoveTo` followed by exactly THREE
`LineTo` directives plus one `Close` (the fourth side is supplied by the
`Close`), not the four `LineTo` the claim requires. -/
theorem c7_rect_three_lines :
    parse_svg_path_d (rectD 0 0 10 5) =
      [.moveTo 0 0 false, .lineTo 10 0 false, .lineTo 10 5 false,
       .lineTo 0 5 false, .close] := by decide

/-- C7 (amended): for every rect whose four rendered attribute values
round-trip through the decimal formatter (true of every terminating
decimal, in particular every concrete example in the spec), the
synthesized path interprets to a single absolute `MoveTo` at `(x, y)`
followed by exactly three absolute `LineTo` directives — to `(x+w, y)`,
`(x+w, y+h)`, `(x, y+h)` — plus one `Close`, tracing the rectangle
clockwise from `(x, y)` with the fourth side closed by the `Close`. -/
theorem c7_rect_path (x y w h : ℚ)
    (hx : isNumericToken (formatQ x) = true) (hy : isNumericToken (formatQ y) = true)
    (hxw : isNumericToken (formatQ (x + w)) = true)
    (hyh : isNumericToken (formatQ (y + h)) = true)
    (hvx : parseNumber? (formatQ x) = some x)
    (hvy : parseNumber? (formatQ y) = some y)
    (hvxw : parseNumber? (formatQ (x + w)) = some (x + w))
    (hvyh : parseNumber? (formatQ (y + h)) = some (y + h)) :
    parse_svg_path_d (rectD x y w h) =
      [.moveTo x y false, .lineTo (x + w) y false, .lineTo (x + w) (y + h) false,
       .lineTo x (y + h) false, .close] := by
  have htok := tokenize_rectD x y w h hx hy hxw hyh
  have hp := parseRectTokens (formatQ x) (formatQ y) (formatQ (x + w)) (formatQ y)
    (formatQ (x + w)) (formatQ (y + h)) (formatQ x) (formatQ (y + h))
  rw [hvx, hvy, hvxw, hvyh] at hp
  simp only [Option.getD_some] at hp
  show (if (tokenize_svg_path (rectD x y w h)).isEmpty then ([] : List SvgCommand)
        else parseLoop (tokenize_svg_path (rectD x y w h))
          ((tokenize_svg_path (rectD x y w h)).length + 1) 0 'M') = _
  rw [htok]
  rw [if_neg (by simp)]
  exact hp

/-- C7 witness: the amended theorem at `rect(0, 0, 10, 5)`, with the
round-trip side conditions checked by evaluation. -/
theorem c7_rect_path_witness :
    isNumericToken (formatQ 0) = true ∧ parseNumber? (formatQ 0) = some 0 ∧
    parse_svg_path_d (rectD 0 0 10 5) =
      [.moveTo 0 0 false, .lineTo 10 0 false, .lineTo 10 5 false,
       .lineTo 0 5 false, .close] :=
  ⟨by decide, by decide,
   c7_rect_path 0 0 10 5 (by decide) (by decide) (by decide) (by decide)
     (by decide) (by decide) (by decide) (by decide)⟩

/-! ## C8 — attribute carry-through on synthesized records -/

/-- C8 counterexample: a circle element carrying `stroke="red"` loses the
stroke on the synthesized record (`stroke := None` is hard-coded), so the
record's stroke does not equal the extracted attribute. -/
theorem c8_stroke_dropped :
    extract_attr "<circle cx=\"0\" cy=\"0\" r=\"1\" stroke=\"red\" fill=\"blue\"/>"
      "stroke" = some "red" ∧
    (circleToRecord "<circle cx=\"0\" cy=\"0\" r=\"1\" stroke=\"red\" fill=\"blue\"/>").map
      ParsedPath.stroke = some none := by decide

/-- C8 (amended): on every synthesized `circle`/`rect`/`polygon` record
the `fill` field is carried through unchanged (it always equals the
extracted `fill` attribute), while `stroke` and `stroke-width` are NOT
carried: they are hard-coded `None` regardless of the element's
attributes. -/
theorem c8_fill_only (el : String) :
    (match circleToRecord el with
     | some r => r.fill = extract_attr el "fill" ∧ r.stroke = none ∧ r.stroke_width = none
     | none => True) ∧
    (match rectToRecord el with
     | some r => r.fill = extract_attr el "fill" ∧ r.stroke = none ∧ r.stroke_width = none
     | none => True) ∧
    (match polygonToRecord el with
     | some r => r.fill = extract_attr el "fill" ∧ r.stroke = none ∧ r.stroke_width = none
     | none => True) := by
  refine ⟨?_, ?_, ?_⟩
  · cases hr : circleToRecord el with
    | none => trivial
    | some r =>
      unfold circleToRecord at hr
      repeat' split at hr
      any_goals exact Option.noConfusion hr
      cases hr
      exact ⟨rfl, rfl, rfl⟩
  · cases hr : rectToRecord el with
    | none => trivial
    | some r =>
      unfold rectToRecord at hr
      repeat' split at hr
      any_goals exact Option.noConfusion hr
      cases hr
      exact ⟨rfl, rfl, rfl⟩
  · cases hr : polygonToRecord el with
    | none => trivial
    | some r =>
      simp only [polygonToRecord] at hr
      repeat' split at hr
      any_goals exact Option.noConfusion hr
      cases hr
      exact ⟨rfl, rfl, rfl⟩

/-- C4 (code bug): the claim (and the spec) state that an unknown letter
is skipped as one token with no directive.  In the source `is_command`
rejects `"B"`, so the still-active previous command repeats and
`parse_number` consumes `"B"` as an operand parsing to `0.0`: after
`"M0,0"` the letter `B` produces a spurious `LineTo(0,0)`, and in
`"M0,0 B L5,5"` the following `L` is also swallowed as the second operand
(the `_ => i += 1` recovery arm is unreachable, because the current
command is always a recognized letter). -/
theorem c4_unknown_letter_consumed :
    parse_svg_path_d "M0,0 B" = [.moveTo 0 0 false, .lineTo 0 0 false] ∧
    parse_svg_path_d "M0,0 B L5,5" =
      [.moveTo 0 0 false, .lineTo 0 0 false, .lineTo 5 5 false] := by decide

end Glade
